import Mathlib

/-!
Verification development for the ytquiz backend (FastAPI service that turns a
YouTube playlist / video URL into a scored multiple-choice quiz).

The Python sources are shallowly embedded:
* `youtube_utils.py` — URL resolution (`extract_playlist_id`,
  `extract_video_id`) is modelled at the character-list level, with the two
  regex searches translated into explicit left-to-right scanners; the
  network-facing collectors (`get_playlist_video_ids`, `get_video_transcript`,
  `get_video_title_description`) take the upstream behaviour as an explicit
  oracle argument and return `Except` (an `Except.error` models a Python
  exception escaping the function).
* `quiz_generator.py` — `generate_questions_from_text` takes the parsed model
  reply as an argument (`none` models a `json.JSONDecodeError`); the
  element-validation loop is translated field by field over a small JSON value
  type, and Python `TypeError` / `AttributeError` crash paths are modelled by
  `Except.error`.
* `main.py` — the pure data flow of the `/generate-quiz` and `/submit-quiz`
  handlers: building the internal question dicts, the public projection, the
  in-memory quiz store (a Python dict modelled as an association list with
  dict-assignment semantics), and the scoring loop.

Strings that the code inspects character by character (URLs, transcripts) are
modelled as `List Char`; opaque payload strings (question text, titles) as
`String`.  Python floats in the score percentage are modelled exactly in `ℚ`.
-/

set_option linter.unusedVariables false
set_option maxRecDepth 8192

/-! ## Character-level utilities (Python `str` helpers) -/

/-- The identifier alphabet `[a-zA-Z0-9_-]` used by both YouTube regexes. -/
def isIdChar (c : Char) : Bool :=
  ('a' ≤ c ∧ c ≤ 'z') ∨ ('A' ≤ c ∧ c ≤ 'Z') ∨ ('0' ≤ c ∧ c ≤ '9') ∨ c = '_' ∨ c = '-'

/-- ASCII whitespace, as stripped by Python's `str.strip()`. -/
def isSpaceChar (c : Char) : Bool :=
  c = ' ' ∨ c = '\t' ∨ c = '\n' ∨ c = '\r' ∨ c = '\x0b' ∨ c = '\x0c'

/-- Remove trailing characters satisfying `p` (the right half of `strip`). -/
def dropTrailing (p : Char → Bool) : List Char → List Char
  | [] => []
  | c :: rest =>
    let r := dropTrailing p rest
    if r = [] ∧ p c then [] else c :: r

/-- Python `str.strip()`: drop leading then trailing whitespace. -/
def pyStrip (s : List Char) : List Char :=
  dropTrailing isSpaceChar (s.dropWhile isSpaceChar)

/-- Python `"\n".join(parts)`. -/
def joinNewline : List (List Char) → List Char
  | [] => []
  | [p] => p
  | p :: ps => p ++ '\n' :: joinNewline ps

/-- Python `" ".join(parts)`. -/
def joinSpace : List (List Char) → List Char
  | [] => []
  | [p] => p
  | p :: ps => p ++ ' ' :: joinSpace ps

/-- Match a literal character sequence at the front of `s`; on success return
the remainder of `s` (the regex-engine step for a literal). -/
def dropLit : List Char → List Char → Option (List Char)
  | [], s => some s
  | _ :: _, [] => none
  | l :: ls, c :: cs => if c = l then dropLit ls cs else none

/-! ## `youtube_utils.extract_playlist_id`

`re.search(r"[?&]list=([a-zA-Z0-9_-]+)", playlist_url)`: scan positions left to
right; at each position require a `?` or `&`, the literal `list=`, then a
maximal nonempty run of identifier characters, which is the captured group. -/

/-- The literal `list=` of the playlist regex. -/
def listEq : List Char := ['l', 'i', 's', 't', '=']

/-- Attempt the anchored match of `[?&]list=([a-zA-Z0-9_-]+)` at the head of
the input, returning the captured group. -/
def matchListAt : List Char → Option (List Char)
  | [] => none
  | c :: rest =>
    if c = '?' ∨ c = '&' then
      match dropLit listEq rest with
      | some after =>
        let run := after.takeWhile isIdChar
        if run = [] then none else some run
      | none => none
    else none

/-- Leftmost-match search for `[?&]list=([a-zA-Z0-9_-]+)`. -/
def searchListParam : List Char → Option (List Char)
  | [] => none
  | c :: rest =>
    match matchListAt (c :: rest) with
    | some r => some r
    | none => searchListParam rest

/-- `youtube_utils.extract_playlist_id` (src/youtube_utils.py lines 18-24). -/
def extract_playlist_id (playlist_url : List Char) : Option (List Char) :=
  searchListParam playlist_url

/-! ## `youtube_utils.extract_video_id`

Four patterns tried in source order: a bare 11-character id (`re.fullmatch`),
then `re.search` for `v=([a-zA-Z0-9_-]{11})`, then
`youtu\.be/([a-zA-Z0-9_-]{11})`, then `shorts/([a-zA-Z0-9_-]{11})`. -/

/-- Leftmost-match search for `<lit>([a-zA-Z0-9_-]{11})`: at each position
match the literal and then exactly 11 identifier characters. -/
def matchIdAfter (lit : List Char) : List Char → Option (List Char)
  | [] => none
  | c :: rest =>
    match dropLit lit (c :: rest) with
    | some after =>
      let run := after.take 11
      if run.length = 11 ∧ run.all isIdChar then some run
      else matchIdAfter lit rest
    | none => matchIdAfter lit rest

/-- The literal `v=` of the watch-URL regex. -/
def vEqLit : List Char := ['v', '=']

/-- The literal `youtu.be/` of the short-domain regex (the `\.` matches only
a dot). -/
def youtuBeLit : List Char := ['y', 'o', 'u', 't', 'u', '.', 'b', 'e', '/']

/-- The literal `shorts/` of the shorts regex. -/
def shortsLit : List Char := ['s', 'h', 'o', 'r', 't', 's', '/']

/-- `youtube_utils.extract_video_id` (src/youtube_utils.py lines 116-145):
strip, test the bare-id full match, then the three searches in source order. -/
def extract_video_id (url_or_id : List Char) : Option (List Char) :=
  let s := pyStrip url_or_id
  if s.length = 11 ∧ s.all isIdChar then some s
  else
    match matchIdAfter vEqLit s with
    | some r => some r
    | none =>
      match matchIdAfter youtuBeLit s with
      | some r => some r
      | none =>
        match matchIdAfter shortsLit s with
        | some r => some r
        | none => none

/-- The video resolver in the priority order the spec states (bare token,
`v=` parameter, `/shorts/<id>` segment, short-domain `/<id>` segment): written
from the spec's words, for comparison with `extract_video_id`. -/
def resolveVideoSpecOrder (url_or_id : List Char) : Option (List Char) :=
  let s := pyStrip url_or_id
  if s.length = 11 ∧ s.all isIdChar then some s
  else (matchIdAfter vEqLit s) <|> (matchIdAfter shortsLit s) <|>
    (matchIdAfter youtuBeLit s)

/-- The video resolver in the order the source actually uses (bare token,
`v=` parameter, short-domain segment, shorts segment), written as a
first-match cascade. -/
def resolveVideoCodeOrder (url_or_id : List Char) : Option (List Char) :=
  let s := pyStrip url_or_id
  if s.length = 11 ∧ s.all isIdChar then some s
  else (matchIdAfter vEqLit s) <|> (matchIdAfter youtuBeLit s) <|>
    (matchIdAfter shortsLit s)







/-! ## Content collectors (`youtube_utils.py`)

Upstream behaviour (the transcript service and the YouTube Data API) is passed
in as an explicit oracle value.  An `Except.error` result models a Python
exception escaping the function; `Option` results can never raise. -/

/-- Outcome of the `YouTubeTranscriptApi.get_transcript` call: either a list of
segment texts (a segment with an absent `"text"` key is modelled as `[]`,
which Python's truthiness test filters out identically), or one of the three
library exceptions named in the `except` clause, or any other exception. -/
inductive TranscriptFetch where
  | ok (segments : List (List Char))
  | transcriptsDisabled
  | noTranscriptFound
  | couldNotRetrieve
  | unexpectedFailure

/-- `TranscriptFetch` outcomes that model a raised exception. -/
def TranscriptFetch.isErr : TranscriptFetch → Bool
  | .ok _ => false
  | _ => true

/-- `youtube_utils.get_video_transcript` (src/youtube_utils.py lines 65-78):
join the nonempty segment texts with spaces, strip, and turn an empty result
into `None`; every exception path returns `None`. -/
def get_video_transcript (fetch : TranscriptFetch) : Option (List Char) :=
  match fetch with
  | .ok segments =>
    let text := joinSpace (segments.filter (fun s => ¬ s.isEmpty))
    let t := pyStrip text
    if t = [] then none else some t
  | _ => none

/-- One page reply of the playlist-items API.  `fail` models a raised
`requests` exception (network error or `raise_for_status`); `page` carries the
video ids of the page and, in place of `nextPageToken`, the chain of further
pages the API would serve (`none` models an absent token). -/
inductive PageChain where
  | fail
  | page (items : List (List Char)) (next : Option PageChain)

/-- The exception outcomes of the collector boundary: a configuration error
(`RuntimeError` for a missing API key) or an upstream `requests` failure. -/
inductive UpstreamErr where
  | missingApiKey
  | requestFailure
deriving DecidableEq

/-- The page-consuming loop of `get_playlist_video_ids`: append the page's
items one by one, returning as soon as `max_videos` ids are collected, then
follow the next-page token or exit the loop. -/
def playlistLoop (max_videos : Nat) : PageChain → List (List Char) →
    Except UpstreamErr (List (List Char))
  | .fail, _ => .error .requestFailure
  | .page items next, acc =>
    match fillIds max_videos acc items with
    | .inl full => .ok full
    | .inr acc' =>
      match next with
      | none => .ok acc'
      | some c => playlistLoop max_videos c acc'
where
  /-- The inner `for item in items` loop: `.inl` is the early `return` once
  `len(video_ids) >= max_videos`, `.inr` is falling off the page. -/
  fillIds (maxv : Nat) (acc : List (List Char)) :
      List (List Char) → (List (List Char)) ⊕ (List (List Char))
  | [] => .inr acc
  | v :: vs =>
    let acc' := acc ++ [v]
    if maxv ≤ acc'.length then .inl acc' else fillIds maxv acc' vs

/-- `youtube_utils.get_playlist_video_ids` (src/youtube_utils.py lines 27-62):
raises on a missing API key, then pages through the listing; any `requests`
failure propagates out (there is no `try` in this function). -/
def get_playlist_video_ids (apiKeySet : Bool) (chain : PageChain)
    (max_videos : Nat) : Except UpstreamErr (List (List Char)) :=
  if ¬ apiKeySet then .error .missingApiKey
  else playlistLoop max_videos chain []

/-- Reply of the videos-metadata API call: `fail` models any raised exception
inside the `try` block; `ok` carries the `items` array, each item reduced to
its snippet's raw `(title, description)` pair. -/
inductive MetaResp where
  | fail
  | ok (items : List ((List Char) × (List Char)))

/-- `youtube_utils.get_video_title_description` (src/youtube_utils.py lines
81-115): raises on a missing API key (outside the `try`), otherwise returns
the stripped title/description of the first item, `none` when there is no
item or both fields strip to empty, and `none` on any exception. -/
def get_video_title_description (apiKeySet : Bool) (resp : MetaResp) :
    Except UpstreamErr (Option ((List Char) × (List Char))) :=
  if ¬ apiKeySet then .error .missingApiKey
  else
    .ok (match resp with
      | .fail => none
      | .ok items =>
        match items with
        | [] => none
        | (t, d) :: _ =>
          let title := pyStrip t
          let description := pyStrip d
          if title = [] ∧ description = [] then none else some (title, description))

/-! ## Per-video text collection (`main.generate_quiz`, step 2)

The body of the `for vid in video_ids` loop in src/main.py lines 139-162:
transcript if present (Python truthiness: nonempty), else a synthesized
title/description block; a video yielding no text is skipped (`.ok none`). -/

/-- The metadata-fallback branch: build `parts` from the nonempty fields,
join with newlines, strip, and drop the video if the result is empty. -/
def synthesizeFromMeta (apiKeySet : Bool) (resp : MetaResp) :
    Except UpstreamErr (Option (List Char)) :=
  match get_video_title_description apiKeySet resp with
  | .error e => .error e
  | .ok none => .ok none
  | .ok (some (title, description)) =>
    let parts : List (List Char) :=
      (if ¬ title.isEmpty then ["Video title: ".toList ++ title] else []) ++
      (if ¬ description.isEmpty then ["Video description:".toList, description] else [])
    let text := pyStrip (joinNewline parts)
    .ok (if text = [] then none else some text)

/-- One iteration of the text-collection loop of `main.generate_quiz`
(src/main.py lines 139-162): `.ok (some t)` appends `t` to `video_texts`,
`.ok none` is the `continue`-skip, `.error` a propagating exception. -/
def collectVideoText (tFetch : TranscriptFetch) (apiKeySet : Bool)
    (mResp : MetaResp) : Except UpstreamErr (Option (List Char)) :=
  match get_video_transcript tFetch with
  | some t => if t = [] then synthesizeFromMeta apiKeySet mResp else .ok (some t)
  | none => synthesizeFromMeta apiKeySet mResp






/-! ## JSON values and the question generator (`quiz_generator.py`)

A small JSON value type, precise enough for the `isinstance` checks the
validation loop performs.  `other` stands for booleans, `null` and non-integer
numbers, which the loop never accepts anywhere it type-checks. -/

/-- A parsed JSON value as `json.loads` would produce it. -/
inductive Json where
  | str (s : String)
  | int (n : Int)
  | arr (elems : List Json)
  | obj (fields : List (String × Json))
  | other

/-- `dict.get(key)` on a parsed JSON object (parsed dicts have unique keys). -/
def lookupField (fields : List (String × Json)) (key : String) : Option Json :=
  (fields.find? (fun p => p.1 = key)).map (·.2)

/-- A Python exception escaping `generate_questions_from_text`: iterating a
non-iterable (`TypeError`) or calling `.get` on a non-dict
(`AttributeError`). -/
inductive PyErr where
  | typeError
  | attributeError
deriving DecidableEq

/-- A validated question as the cleaning loop stores it: the `question` field
is known to be a string and `correct_index` an integer in `[0, 4)`, while the
`options` elements and the `explanation` are stored unchecked. -/
structure CleanedQ where
  question : String
  options : List Json
  correct_index : Int
  explanation : Json

/-- `data.get("questions", [])` followed by entering `for q in questions`:
an absent key yields the empty default; a JSON array is iterated; a nonempty
string or object would be iterated and immediately crash the loop body with
`AttributeError` (its elements are characters/keys, which have no `.get`);
an empty string or object iterates zero times; any other value is not
iterable (`TypeError`). -/
def parseQuestionsList (fields : List (String × Json)) : Except PyErr (List Json) :=
  match lookupField fields "questions" with
  | none => .ok []
  | some (.arr elems) => .ok elems
  | some (.str s) => if s = "" then .ok [] else .error .attributeError
  | some (.obj fs) => if fs.isEmpty then .ok [] else .error .attributeError
  | some _ => .error .typeError

/-- One iteration of the validation loop (src/quiz_generator.py lines
169-184): on a dict element, keep it iff `question` is a string, `options` a
list of length 4, and `correct_index` an integer in `[0, 4)`; a non-dict
element raises `AttributeError` at `q.get`. -/
def cleanElement (q : Json) : Except PyErr (Option CleanedQ) :=
  match q with
  | .obj fields =>
    match lookupField fields "question", lookupField fields "options",
        lookupField fields "correct_index" with
    | some (.str qs), some (.arr opts), some (.int ci) =>
      if opts.length = 4 ∧ 0 ≤ ci ∧ ci < 4 then
        .ok (some { question := qs, options := opts, correct_index := ci,
                    explanation := (lookupField fields "explanation").getD (.str "") })
      else .ok none
    | _, _, _ => .ok none
  | _ => .error .attributeError

/-- The whole validation loop: clean each element in order, dropping invalid
ones; a crash in any iteration propagates. -/
def cleanQuestions : List Json → Except PyErr (List CleanedQ)
  | [] => .ok []
  | q :: rest =>
    match cleanElement q with
    | .error e => .error e
    | .ok kept =>
      match cleanQuestions rest with
      | .error e => .error e
      | .ok cs => .ok (match kept with | some cq => cq :: cs | none => cs)

/-- `quiz_generator.generate_questions_from_text` (src/quiz_generator.py lines
17-191), with the single OpenAI call abstracted into the `reply` argument:
`none` models content that fails `json.loads` (return `[]`), `some fields`
the parsed JSON object (the API's `json_object` response format guarantees an
object).  The prompt-shaping steps (truncation to 8000 characters, difficulty
instruction, oversample count) only influence the reply and are not re-modelled
here.  After cleaning, return the first `max(1, num_questions)` validated
questions if enough validated, otherwise all of them. -/
def generate_questions_from_text (text : String) (num_questions : Int)
    (difficulty : Option String) (reply : Option (List (String × Json))) :
    Except PyErr (List CleanedQ) :=
  let target_questions := (max 1 num_questions).toNat
  match reply with
  | none => .ok []
  | some fields =>
    match parseQuestionsList fields with
    | .error e => .error e
    | .ok qs =>
      match cleanQuestions qs with
      | .error e => .error e
      | .ok cleaned =>
        if target_questions ≤ cleaned.length then .ok (cleaned.take target_questions)
        else .ok cleaned

/-! ## Quiz data model and handlers (`main.py`) -/

/-- An internal question dict as built in step 5 of `main.generate_quiz`
(src/main.py lines 195-205) and stored in `QUIZZES`. -/
structure StoredQuestion where
  id : Int
  question : String
  options : List Json
  correct_index : Int
  explanation : Json

/-- A `PublicQuestion` (src/main.py lines 38-41): the response model carries
only `id`, `question` and `options` — there is no field for the correct index
or the explanation. -/
structure PublicQuestion where
  id : Int
  question : String
  options : List Json

/-- Step 5 of `main.generate_quiz`: enumerate the generator output and attach
ordinal ids. -/
def buildAllQuestions (raw : List CleanedQ) : List StoredQuestion :=
  raw.enum.map fun p =>
    { id := (p.1 : Int), question := p.2.question, options := p.2.options,
      correct_index := p.2.correct_index, explanation := p.2.explanation }

/-- Step 6 of `main.generate_quiz` (src/main.py lines 211-218): the public
projection sent back to the client. -/
def buildPublicQuestions (all : List StoredQuestion) : List PublicQuestion :=
  all.map fun q => { id := q.id, question := q.question, options := q.options }

/-- The `QUIZZES` in-memory store (src/main.py line 75). -/
abbrev QuizStore := List (String × List StoredQuestion)

/-- `QUIZZES[quiz_id] = all_questions` (src/main.py line 209): Python dict
assignment — overwrite in place when the key exists, append otherwise. -/
def quizStoreSet (store : QuizStore) (quizId : String)
    (questions : List StoredQuestion) : QuizStore :=
  if store.any (fun p => p.1 = quizId) then
    store.map (fun p => if p.1 = quizId then (quizId, questions) else p)
  else store ++ [(quizId, questions)]

/-- `QUIZZES.get(quiz_id)` (src/main.py line 227). -/
def quizStoreGet (store : QuizStore) (quizId : String) :
    Option (List StoredQuestion) :=
  (store.find? (fun p => p.1 = quizId)).map (·.2)

/-! ## Scoring (`main.submit_quiz`, src/main.py lines 226-265) -/

/-- A submitted answer (`AnswerItem`): both fields arrive from the client as
unvalidated integers. -/
structure AnswerItem where
  questionId : Int
  selectedIndex : Int

/-- One `QuestionResult` row of the submit response. -/
structure QuestionResult where
  questionId : Int
  correctIndex : Int
  selectedIndex : Int
  isCorrect : Bool
  explanation : Json

/-- The `SubmitQuizResponse` payload; `percentage` is modelled exactly in
`ℚ` (the Python float arithmetic `correct_count / total * 100` on these small
integers is exact whenever `total` is a power of two, and `ℚ` is the idealised
value the spec states). -/
structure ScoreResult where
  score : Nat
  total : Nat
  percentage : ℚ
  results : List QuestionResult

/-- `question_map = {q["id"]: q for q in quiz_questions}` (src/main.py line
232): a Python dict comprehension — later entries overwrite earlier ones in
place. -/
def buildQuestionMap (quiz : List StoredQuestion) : List (Int × StoredQuestion) :=
  quiz.foldl (fun m q =>
    if m.any (fun p => p.1 = q.id) then
      m.map (fun p => if p.1 = q.id then (q.id, q) else p)
    else m ++ [(q.id, q)]) []

/-- `question_map.get(ans.questionId)`. -/
def questionMapGet (m : List (Int × StoredQuestion)) (qid : Int) :
    Option StoredQuestion :=
  (m.find? (fun p => p.1 = qid)).map (·.2)

/-- The result row a single submitted answer produces, if its `questionId`
matches a stored question (the loop body of src/main.py lines 237-255). -/
def rowOfAnswer (m : List (Int × StoredQuestion)) (a : AnswerItem) :
    Option QuestionResult :=
  (questionMapGet m a.questionId).map fun q =>
    { questionId := q.id, correctIndex := q.correct_index,
      selectedIndex := a.selectedIndex,
      isCorrect := a.selectedIndex = q.correct_index,
      explanation := q.explanation }

/-- The scoring computation of `main.submit_quiz` after the store lookup
(src/main.py lines 232-265): answers whose id is unknown are skipped; each
matched answer appends one result row in submission order and, when correct,
increments the counter; `total` is the size of the question map and the
percentage is `correct_count / total * 100`, or `0` for an empty quiz. -/
def scoreQuiz (quiz_questions : List StoredQuestion) (answers : List AnswerItem) :
    ScoreResult :=
  let question_map := buildQuestionMap quiz_questions
  let results := answers.filterMap (rowOfAnswer question_map)
  let correct_count := (results.filter (·.isCorrect)).length
  let total := question_map.length
  { score := correct_count, total := total,
    percentage := if total = 0 then 0 else (correct_count : ℚ) / total * 100,
    results := results }

/-- `main.submit_quiz` (src/main.py lines 226-265): `.error` is the 404 path
for an unknown quiz id. -/
def submit_quiz (store : QuizStore) (quizId : String) (answers : List AnswerItem) :
    Except Unit ScoreResult :=
  match quizStoreGet store quizId with
  | none => .error ()
  | some quiz_questions => .ok (scoreQuiz quiz_questions answers)

/-! ## Spec-side model of a URL carrying a `list=` query parameter

Modelled from the spec's words: a playlist URL is a prefix (scheme, host,
path), a `?`, and an `&`-joined sequence of query parameters, one of which is
`list=<value>`. -/

/-- `"&".join(pairs)`: the query string assembled from its parameters. -/
def joinPairs : List (List Char) → List Char
  | [] => []
  | [p] => p
  | p :: ps => p ++ '&' :: joinPairs ps

/-- A query parameter other than the `list` parameter, as the spec's
"independent of other query parameters present" envisages one: it contains no
separator characters and its key is not `list`. -/
def plainParam (p : List Char) : Prop :=
  (∀ ch ∈ p, ch ≠ '?' ∧ ch ≠ '&') ∧ ¬ ∃ r, p = listEq ++ r

/-- Modelled from the spec: the URL whose query string contains the parameter
`list=<v>`, preceded by the parameters `earlier` and followed by `later`. -/
def urlWithListParam (pre : List Char) (earlier : List (List Char))
    (v : List Char) (later : List (List Char)) : List Char :=
  pre ++ '?' :: joinPairs (earlier ++ (listEq ++ v) :: later)

/-- Whether a submitted answer matches some stored question (spec-side
reading used to state the no-deduplication property). -/
def answerMatched (m : List (Int × StoredQuestion)) (a : AnswerItem) : Bool :=
  (questionMapGet m a.questionId).isSome

/-- Whether a submitted answer matches some stored question and selects its
correct index. -/
def answerIsCorrect (m : List (Int × StoredQuestion)) (a : AnswerItem) : Bool :=
  match questionMapGet m a.questionId with
  | some q => a.selectedIndex = q.correct_index
  | none => false

/-! ## URL classification in `main.generate_quiz` (src/main.py lines 117-134) -/

/-- Outcome of step 1 of `main.generate_quiz`: which resolver decided the
request. -/
inductive UrlResolution where
  | playlist (pid : List Char)
  | video (vid : List Char)
  | invalidUrl
deriving DecidableEq

/-- Step 1 of `main.generate_quiz`: try the playlist resolver first and use
the video resolver only when no playlist id is present. -/
def classifyUrl (raw_url : List Char) : UrlResolution :=
  match extract_playlist_id raw_url with
  | some pid => .playlist pid
  | none =>
    match extract_video_id raw_url with
    | some vid => .video vid
    | none => .invalidUrl

/-- The spec's data-model invariant for a Question, read from its words:
"options: ordered sequence of exactly 4 distinct strings, correctIndex:
integer in [0,4)". -/
def specQuestionInvariant (q : CleanedQ) : Prop :=
  q.options.length = 4 ∧ q.options.Nodup ∧ (∀ o ∈ q.options, ∃ s, o = Json.str s) ∧
  0 ≤ q.correct_index ∧ q.correct_index < 4

/-! ## Helper lemmas about `pyStrip` -/

lemma dropWhile_self_idem (p : Char → Bool) (l : List Char) :
    (l.dropWhile p).dropWhile p = l.dropWhile p := by
  induction l with
  | nil => rfl
  | cons c rest ih =>
    by_cases h : p c
    · simp [List.dropWhile_cons, h, ih]
    · simp [List.dropWhile_cons, h]

lemma dropTrailing_idem (p : Char → Bool) (l : List Char) :
    dropTrailing p (dropTrailing p l) = dropTrailing p l := by
  induction l with
  | nil => rfl
  | cons c rest ih =>
    simp only [dropTrailing]
    by_cases h : dropTrailing p rest = [] ∧ p c
    · simp [h, dropTrailing]
    · simp only [if_neg h, dropTrailing, ih, if_neg h]

lemma dropWhile_length_le (p : Char → Bool) (l : List Char) :
    (l.dropWhile p).length ≤ l.length := by
  induction l with
  | nil => simp
  | cons c rest ih =>
    by_cases h : p c
    · simp only [List.dropWhile_cons, if_pos h, List.length_cons]
      omega
    · simp [List.dropWhile_cons, h]

lemma dropWhile_dropTrailing (p : Char → Bool) (l : List Char)
    (h : l.dropWhile p = l) : (dropTrailing p l).dropWhile p = dropTrailing p l := by
  cases l with
  | nil => rfl
  | cons c rest =>
    have hc : ¬ p c := by
      intro hpc
      have hlen := congrArg List.length h
      rw [List.dropWhile_cons, if_pos hpc] at hlen
      have := dropWhile_length_le p rest
      simp at hlen
      omega
    have hcond : ¬ (dropTrailing p rest = [] ∧ p c) := fun hh => hc hh.2
    simp only [dropTrailing, if_neg hcond, List.dropWhile_cons, if_neg hc]

lemma pyStrip_idem (s : List Char) : pyStrip (pyStrip s) = pyStrip s := by
  unfold pyStrip
  rw [dropWhile_dropTrailing _ _ (dropWhile_self_idem _ _), dropTrailing_idem]

/-! ## Helper lemmas for the content collector -/

lemma get_video_transcript_some {f : TranscriptFetch} {t : List Char}
    (h : get_video_transcript f = some t) : t ≠ [] ∧ pyStrip t = t := by
  cases f with
  | ok segments =>
    simp only [get_video_transcript] at h
    split at h
    · exact absurd h (by simp)
    · rename_i hne
      cases h
      exact ⟨hne, pyStrip_idem _⟩
  | transcriptsDisabled => simp [get_video_transcript] at h
  | noTranscriptFound => simp [get_video_transcript] at h
  | couldNotRetrieve => simp [get_video_transcript] at h
  | unexpectedFailure => simp [get_video_transcript] at h

lemma ok_ite_none_some {t x : List Char} {c : Prop} [Decidable c]
    (h : (Except.ok (if c then none else some x) :
        Except UpstreamErr (Option (List Char))) = .ok (some t)) :
    ¬ c ∧ x = t := by
  by_cases hc : c
  · rw [if_pos hc] at h
    exact absurd h (by simp)
  · rw [if_neg hc] at h
    simp only [Except.ok.injEq, Option.some.injEq] at h
    exact ⟨hc, h⟩

lemma synthesizeFromMeta_some {key : Bool} {mr : MetaResp} {t : List Char}
    (h : synthesizeFromMeta key mr = .ok (some t)) : t ≠ [] ∧ pyStrip t = t := by
  unfold synthesizeFromMeta at h
  cases hm : get_video_title_description key mr with
  | error e => rw [hm] at h; exact absurd h (by simp)
  | ok o =>
    rw [hm] at h
    match o with
    | none => exact absurd h (by simp)
    | some (title, description) =>
      obtain ⟨hne, rfl⟩ := ok_ite_none_some h
      exact ⟨hne, pyStrip_idem _⟩

lemma collectVideoText_some {tf : TranscriptFetch} {key : Bool} {mr : MetaResp}
    {t : List Char} (h : collectVideoText tf key mr = .ok (some t)) :
    t ≠ [] ∧ pyStrip t = t := by
  cases hgt : get_video_transcript tf with
  | none =>
    simp only [collectVideoText, hgt] at h
    exact synthesizeFromMeta_some h
  | some t' =>
    simp only [collectVideoText, hgt] at h
    by_cases ht : t' = []
    · rw [if_pos ht] at h
      exact synthesizeFromMeta_some h
    · rw [if_neg ht] at h
      simp only [Except.ok.injEq, Option.some.injEq] at h
      subst h
      exact get_video_transcript_some hgt

/-! ## Helper lemmas for the playlist-URL regex -/

lemma dropLit_append (lit rest : List Char) : dropLit lit (lit ++ rest) = some rest := by
  induction lit with
  | nil => rfl
  | cons l ls ih => simp [dropLit, ih]

lemma dropLit_some {lit s r : List Char} (h : dropLit lit s = some r) : s = lit ++ r := by
  induction lit generalizing s with
  | nil =>
    simp only [dropLit, Option.some.injEq] at h
    simp [h]
  | cons l ls ih =>
    cases s with
    | nil => simp [dropLit] at h
    | cons c cs =>
      simp only [dropLit] at h
      by_cases hc : c = l
      · rw [if_pos hc] at h
        subst hc
        simp [ih h]
      · rw [if_neg hc] at h
        exact absurd h (by simp)

lemma dropLit_none_of_amp {p J : List Char} (hnp : ¬ ∃ r, p = listEq ++ r)
    (hamp : '&' ∉ p) : dropLit listEq (p ++ '&' :: J) = none := by
  cases hd : dropLit listEq (p ++ '&' :: J) with
  | none => rfl
  | some r =>
    exfalso
    have heq : p ++ '&' :: J = listEq ++ r := dropLit_some hd
    rcases List.append_eq_append_iff.mp heq with ⟨a, ha1, ha2⟩ | ⟨b, hb1, _⟩
    · cases a with
      | nil =>
        have hpe : p = listEq := by simpa using ha1.symm
        exact hnp ⟨[], by simp [hpe]⟩
      | cons x xs =>
        have hx : x = '&' := by
          have := ha2
          simp only [List.cons_append, List.cons.injEq] at this
          exact this.1.symm
        subst hx
        have : '&' ∈ listEq := by
          rw [ha1]
          exact List.mem_append_right _ (by simp)
        revert this
        decide
    · exact hnp ⟨b, hb1⟩

lemma takeWhile_append_all {p : Char → Bool} {v t : List Char}
    (hv : ∀ c ∈ v, p c = true)
    (ht : ∀ c t', t = c :: t' → p c = false) :
    (v ++ t).takeWhile p = v := by
  induction v with
  | nil =>
    cases t with
    | nil => rfl
    | cons c t' => simp [List.takeWhile_cons, ht c t' rfl]
  | cons c v' ih =>
    have hc := hv c (by simp)
    simp only [List.cons_append, List.takeWhile_cons, hc, if_true]
    rw [ih (fun ch hch => hv ch (by simp [hch]))]

lemma matchListAt_hit {c : Char} (hc : c = '?' ∨ c = '&') {v t : List Char}
    (hv : v ≠ []) (hvid : ∀ ch ∈ v, isIdChar ch = true)
    (ht : ∀ ch t', t = ch :: t' → isIdChar ch = false) :
    matchListAt (c :: (listEq ++ (v ++ t))) = some v := by
  simp only [matchListAt, if_pos hc, dropLit_append, takeWhile_append_all hvid ht,
    if_neg hv]

lemma matchListAt_miss {c : Char} {p J : List Char}
    (hnp : ¬ ∃ r, p = listEq ++ r) (hamp : '&' ∉ p) :
    matchListAt (c :: (p ++ '&' :: J)) = none := by
  by_cases hc : c = '?' ∨ c = '&'
  · simp only [matchListAt, if_pos hc, dropLit_none_of_amp hnp hamp]
  · simp only [matchListAt, if_neg hc]

lemma searchListParam_cons_some {c : Char} {rest r : List Char}
    (h : matchListAt (c :: rest) = some r) :
    searchListParam (c :: rest) = some r := by
  simp only [searchListParam, h]

lemma searchListParam_cons_none {c : Char} {rest : List Char}
    (h : matchListAt (c :: rest) = none) :
    searchListParam (c :: rest) = searchListParam rest := by
  simp only [searchListParam, h]

lemma searchListParam_skip {pre : List Char} (rest : List Char)
    (hpre : ∀ c ∈ pre, c ≠ '?' ∧ c ≠ '&') :
    searchListParam (pre ++ rest) = searchListParam rest := by
  induction pre with
  | nil => rfl
  | cons c pre' ih =>
    have hc := hpre c (by simp)
    have hcond : ¬ (c = '?' ∨ c = '&') := by tauto
    rw [List.cons_append,
      searchListParam_cons_none (by simp only [matchListAt, if_neg hcond]),
      ih (fun ch hch => hpre ch (by simp [hch]))]

lemma joinPairs_cons {p : List Char} {ps : List (List Char)} (h : ps ≠ []) :
    joinPairs (p :: ps) = p ++ '&' :: joinPairs ps := by
  cases ps with
  | nil => exact absurd rfl h
  | cons q qs => rfl

lemma searchListParam_pairs {v : List Char} {later : List (List Char)}
    (hv : v ≠ []) (hvid : ∀ ch ∈ v, isIdChar ch = true) :
    ∀ (earlier : List (List Char)) (c : Char), (c = '?' ∨ c = '&') →
    (∀ p ∈ earlier, plainParam p) →
    searchListParam (c :: joinPairs (earlier ++ (listEq ++ v) :: later)) = some v := by
  intro earlier
  induction earlier with
  | nil =>
    intro c hc _
    cases later with
    | nil =>
      rw [List.nil_append]
      show searchListParam (c :: joinPairs [listEq ++ v]) = some v
      have : joinPairs [listEq ++ v] = listEq ++ (v ++ []) := by simp [joinPairs]
      rw [this]
      exact searchListParam_cons_some
        (matchListAt_hit hc hv hvid (fun ch t' h => by simp at h))
    | cons q qs =>
      rw [List.nil_append, joinPairs_cons (by simp)]
      have : (listEq ++ v) ++ '&' :: joinPairs (q :: qs)
          = listEq ++ (v ++ '&' :: joinPairs (q :: qs)) := by
        simp [List.append_assoc]
      rw [this]
      refine searchListParam_cons_some (matchListAt_hit hc hv hvid ?_)
      intro ch t' h
      have : ch = '&' := (List.cons.injEq _ _ _ _ ▸ h).1.symm
      subst this
      decide
  | cons p ps ih =>
    intro c hc hgood
    have hp := hgood p (by simp)
    rw [List.cons_append, joinPairs_cons (by simp)]
    rw [searchListParam_cons_none
      (matchListAt_miss hp.2 (fun hin => (hp.1 '&' hin).2 rfl))]
    rw [searchListParam_skip _ hp.1]
    exact ih '&' (Or.inr rfl) (fun q hq => hgood q (by simp [hq]))

/-! ## Helper lemmas for the question generator -/

lemma cleanElement_some_shape {q : Json} {cq : CleanedQ}
    (h : cleanElement q = .ok (some cq)) :
    cq.options.length = 4 ∧ 0 ≤ cq.correct_index ∧ cq.correct_index < 4 := by
  cases q with
  | obj fields =>
    simp only [cleanElement] at h
    split at h
    · split at h
      · rename_i hcond
        simp only [Except.ok.injEq, Option.some.injEq] at h
        subst h
        simpa using hcond
      · simp at h
    · simp at h
  | str s => simp [cleanElement] at h
  | int n => simp [cleanElement] at h
  | arr elems => simp [cleanElement] at h
  | other => simp [cleanElement] at h

lemma cleanQuestions_ok_shape {qs : List Json} {cleaned : List CleanedQ}
    (h : cleanQuestions qs = .ok cleaned) :
    ∀ cq ∈ cleaned,
      cq.options.length = 4 ∧ 0 ≤ cq.correct_index ∧ cq.correct_index < 4 := by
  induction qs generalizing cleaned with
  | nil =>
    simp only [cleanQuestions, Except.ok.injEq] at h
    subst h
    simp
  | cons q rest ih =>
    simp only [cleanQuestions] at h
    cases hce : cleanElement q with
    | error e => rw [hce] at h; simp at h
    | ok kept =>
      rw [hce] at h
      cases hcr : cleanQuestions rest with
      | error e => rw [hcr] at h; simp at h
      | ok cs =>
        rw [hcr] at h
        simp only [Except.ok.injEq] at h
        subst h
        cases kept with
        | some cq' =>
          intro cq hcq
          rcases List.mem_cons.mp hcq with rfl | hmem
          · exact cleanElement_some_shape hce
          · exact ih hcr cq hmem
        | none => exact ih hcr

/-- Case analysis on a successful run of `generate_questions_from_text`. -/
lemma generate_ok_cases {text : String} {n : Int} {diff : Option String}
    {reply : Option (List (String × Json))} {res : List CleanedQ}
    (h : generate_questions_from_text text n diff reply = .ok res) :
    res = [] ∨
      ∃ fields qs cleaned, reply = some fields ∧
        parseQuestionsList fields = .ok qs ∧ cleanQuestions qs = .ok cleaned ∧
        (res = cleaned.take (max 1 n).toNat ∨
          (res = cleaned ∧ cleaned.length < (max 1 n).toNat)) := by
  cases reply with
  | none =>
    simp only [generate_questions_from_text, Except.ok.injEq] at h
    exact Or.inl h.symm
  | some fields =>
    simp only [generate_questions_from_text] at h
    split at h
    · exact absurd h (by simp)
    · rename_i qs hqs
      split at h
      · exact absurd h (by simp)
      · rename_i cleaned hcleaned
        refine Or.inr ⟨fields, qs, cleaned, rfl, hqs, hcleaned, ?_⟩
        split at h
        · rename_i hlen
          simp only [Except.ok.injEq] at h
          exact Or.inl h.symm
        · rename_i hlen
          simp only [Except.ok.injEq] at h
          exact Or.inr ⟨h.symm, by omega⟩

/-! ## Helper lemmas for the scorer -/

lemma filterMap_rowOf_length (m : List (Int × StoredQuestion)) :
    ∀ answers : List AnswerItem,
      (answers.filterMap (rowOfAnswer m)).length = answers.countP (answerMatched m) := by
  intro answers
  induction answers with
  | nil => rfl
  | cons a rest ih =>
    cases hq : questionMapGet m a.questionId with
    | none =>
      simp [List.filterMap_cons, List.countP_cons, rowOfAnswer, hq, answerMatched, ih]
    | some q =>
      simp [List.filterMap_cons, List.countP_cons, rowOfAnswer, hq, answerMatched, ih]

lemma filterMap_rowOf_correct (m : List (Int × StoredQuestion)) :
    ∀ answers : List AnswerItem,
      ((answers.filterMap (rowOfAnswer m)).filter (·.isCorrect)).length
        = answers.countP (answerIsCorrect m) := by
  intro answers
  induction answers with
  | nil => rfl
  | cons a rest ih =>
    cases hq : questionMapGet m a.questionId with
    | none =>
      simp [List.filterMap_cons, List.countP_cons, rowOfAnswer, hq, answerIsCorrect, ih]
    | some q =>
      by_cases hcor : a.selectedIndex = q.correct_index
      · simp [List.filterMap_cons, List.countP_cons, List.filter_cons, rowOfAnswer, hq,
          answerIsCorrect, hcor, ih]
      · simp [List.filterMap_cons, List.countP_cons, List.filter_cons, rowOfAnswer, hq,
          answerIsCorrect, hcor, ih]

lemma buildQuestionMap_keys :
    ∀ (quiz : List StoredQuestion) (m : List (Int × StoredQuestion)),
    (∀ q ∈ quiz, ∀ p ∈ m, p.1 ≠ q.id) → (quiz.map (·.id)).Nodup →
    (quiz.foldl (fun m q =>
      if m.any (fun p => p.1 = q.id) then
        m.map (fun p => if p.1 = q.id then (q.id, q) else p)
      else m ++ [(q.id, q)]) m).map (·.1) = m.map (·.1) ++ quiz.map (·.id) := by
  intro quiz
  induction quiz with
  | nil => simp
  | cons q rest ih =>
    intro m hfresh hnodup
    rw [List.foldl_cons]
    have hany : m.any (fun p => p.1 = q.id) = false := by
      rw [List.any_eq_false]
      intro p hp
      simpa using hfresh q (by simp) p hp
    rw [if_neg (by simp [hany])]
    have hn : q.id ∉ rest.map (·.id) ∧ (rest.map (·.id)).Nodup := by
      rw [List.map_cons, List.nodup_cons] at hnodup
      exact hnodup
    have hfresh' : ∀ q' ∈ rest, ∀ p ∈ m ++ [(q.id, q)], p.1 ≠ q'.id := by
      intro q' hq' p hp
      rcases List.mem_append.mp hp with hm | hone
      · exact hfresh q' (by simp [hq']) p hm
      · have hpq : p = (q.id, q) := by simpa using hone
        subst hpq
        intro heq
        apply hn.1
        have heq' : q.id = q'.id := heq
        rw [heq']
        exact List.mem_map.mpr ⟨q', hq', rfl⟩
    rw [ih (m ++ [(q.id, q)]) hfresh' hn.2]
    simp

lemma buildQuestionMap_length {quiz : List StoredQuestion}
    (h : (quiz.map (·.id)).Nodup) :
    (buildQuestionMap quiz).length = quiz.length := by
  have hk := buildQuestionMap_keys quiz [] (by simp) h
  have hmap : (buildQuestionMap quiz).map (·.1) = quiz.map (·.id) := by
    simpa [buildQuestionMap] using hk
  have := congrArg List.length hmap
  simpa using this

lemma buildAllQuestions_ids_nodup (raw : List CleanedQ) :
    ((buildAllQuestions raw).map (·.id)).Nodup := by
  have h1 : (buildAllQuestions raw).map (·.id)
      = (raw.enum.map Prod.fst).map Int.ofNat := by
    unfold buildAllQuestions
    rw [List.map_map, List.map_map]
    rfl
  rw [h1, List.enum_map_fst]
  exact List.Nodup.map (fun a b h => Int.ofNat.inj h) (List.nodup_range _)

/-! ## Helper lemmas about enumeration and the public projection -/

lemma snd_mem_of_mem_enumFrom {α : Type} :
    ∀ {l : List α} {n : Nat} {p : Nat × α}, p ∈ l.enumFrom n → p.2 ∈ l := by
  intro l
  induction l with
  | nil => intro n p h; simp [List.enumFrom] at h
  | cons a rest ih =>
    intro n p h
    simp only [List.enumFrom, List.mem_cons] at h
    rcases h with rfl | h
    · simp
    · exact List.mem_cons_of_mem _ (ih h)

lemma publicOf_eq_enumFrom (raw : List CleanedQ) :
    buildPublicQuestions (buildAllQuestions raw)
      = (raw.enumFrom 0).map (fun p =>
          ({ id := (p.1 : Int), question := p.2.question,
             options := p.2.options } : PublicQuestion)) := by
  unfold buildPublicQuestions buildAllQuestions
  rw [List.map_map]
  rfl

lemma publicOf_congr_enumFrom {raw1 raw2 : List CleanedQ}
    (h : List.Forall₂ (fun a b => a.question = b.question ∧ a.options = b.options)
      raw1 raw2) :
    ∀ n : Nat,
      (raw1.enumFrom n).map (fun p =>
        ({ id := (p.1 : Int), question := p.2.question,
           options := p.2.options } : PublicQuestion))
      = (raw2.enumFrom n).map (fun p =>
        ({ id := (p.1 : Int), question := p.2.question,
           options := p.2.options } : PublicQuestion)) := by
  induction h with
  | nil => intro n; rfl
  | cons hab htail ih =>
    intro n
    simp only [List.enumFrom, List.map_cons]
    congr 1
    · rw [hab.1, hab.2]
    · exact ih (n + 1)

/-- Forward computation of a successful truncating run of the generator. -/
lemma generate_ok_take {text : String} {n : Int} {diff : Option String}
    {fields : List (String × Json)} {qs : List Json} {cleaned : List CleanedQ}
    (hp : parseQuestionsList fields = .ok qs) (hc : cleanQuestions qs = .ok cleaned)
    (hlen : (max 1 n).toNat ≤ cleaned.length) :
    generate_questions_from_text text n diff (some fields)
      = .ok (cleaned.take (max 1 n).toNat) := by
  simp only [generate_questions_from_text, hp, hc, if_pos hlen]

/-! ## Helper lemmas for the quiz store -/

lemma find?_map_overwrite {store : QuizStore} {t k : String}
    {qs : List StoredQuestion} (hk : k ≠ t) :
    (store.map (fun p => if p.1 = t then (t, qs) else p)).find? (fun p => p.1 = k)
      = store.find? (fun p => p.1 = k) := by
  induction store with
  | nil => rfl
  | cons p ps ih =>
    by_cases hp : p.1 = t
    · simp only [List.map_cons, if_pos hp]
      have h1 : (decide ((t, qs).1 = k)) = false := by simp [Ne.symm hk]
      have h2 : (decide (p.1 = k)) = false := by simp [hp, Ne.symm hk]
      rw [List.find?_cons, List.find?_cons, h1, h2]
      exact ih
    · simp only [List.map_cons, if_neg hp, List.find?_cons]
      by_cases hpk : p.1 = k
      · simp [hpk]
      · simp [hpk, ih]
  
lemma find?_append_fresh {store : QuizStore} {t k : String}
    {qs : List StoredQuestion} (hk : k ≠ t) :
    (store ++ [(t, qs)]).find? (fun p => p.1 = k)
      = store.find? (fun p => p.1 = k) := by
  induction store with
  | nil => simp [List.find?, Ne.symm hk]
  | cons p ps ih =>
    by_cases hpk : p.1 = k
    · simp [List.find?_cons, hpk]
    · simp [List.find?_cons, hpk, ih]

/-! ## Helper lemmas for prefix-freeness of concrete parameters -/

lemma isPrefixOf_append_self (l r : List Char) : l.isPrefixOf (l ++ r) = true := by
  induction l with
  | nil => simp [List.isPrefixOf]
  | cons c cs ih => simp [List.isPrefixOf, ih]

lemma not_ex_of_isPrefixOf_false {p : List Char}
    (h : listEq.isPrefixOf p = false) : ¬ ∃ r, p = listEq ++ r := by
  rintro ⟨r, rfl⟩
  rw [isPrefixOf_append_self] at h
  simp at h

/-! ## Claim theorems -/

/-- C1: a successful Generate response exposes only `id`, `question` and
`options` per question (the `PublicQuestion` record has no other field), and
the public question payload is identical for any two runs whose validated
questions agree on `question` and `options` and differ only in
`correct_index` and `explanation`. -/
theorem public_payload_independent_of_answers
    {raw1 raw2 : List CleanedQ}
    (h : List.Forall₂ (fun a b => a.question = b.question ∧ a.options = b.options)
      raw1 raw2) :
    buildPublicQuestions (buildAllQuestions raw1)
      = buildPublicQuestions (buildAllQuestions raw2) := by
  rw [publicOf_eq_enumFrom, publicOf_eq_enumFrom]
  exact publicOf_congr_enumFrom h 0

theorem public_payload_independent_of_answers_witness :
    List.Forall₂
      (fun a b => a.question = b.question ∧ a.options = b.options)
      [(⟨"Q1", [Json.str "a", Json.str "b", Json.str "c", Json.str "d"], 0,
        Json.str "because a"⟩ : CleanedQ)]
      [(⟨"Q1", [Json.str "a", Json.str "b", Json.str "c", Json.str "d"], 3,
        Json.str "changed"⟩ : CleanedQ)] ∧
    buildPublicQuestions (buildAllQuestions
      [(⟨"Q1", [Json.str "a", Json.str "b", Json.str "c", Json.str "d"], 0,
        Json.str "because a"⟩ : CleanedQ)])
    = buildPublicQuestions (buildAllQuestions
      [(⟨"Q1", [Json.str "a", Json.str "b", Json.str "c", Json.str "d"], 3,
        Json.str "changed"⟩ : CleanedQ)]) :=
  ⟨List.Forall₂.cons ⟨rfl, rfl⟩ List.Forall₂.nil,
    public_payload_independent_of_answers
      (List.Forall₂.cons ⟨rfl, rfl⟩ List.Forall₂.nil)⟩

/-- C3: for every stored quiz (as `main.generate_quiz` builds and stores it)
and every submitted answer list, `total` is the number of questions in the
stored quiz — not the number of answers — and `percentage` is
`score / total * 100`, with `0` for an empty quiz. -/
theorem scorer_total_and_percentage (raw : List CleanedQ) (answers : List AnswerItem) :
    (scoreQuiz (buildAllQuestions raw) answers).total = (buildAllQuestions raw).length ∧
    (scoreQuiz (buildAllQuestions raw) answers).percentage =
      (if (scoreQuiz (buildAllQuestions raw) answers).total = 0 then 0
       else ((scoreQuiz (buildAllQuestions raw) answers).score : ℚ)
         / ((scoreQuiz (buildAllQuestions raw) answers).total : ℚ) * 100) :=
  ⟨buildQuestionMap_length (buildAllQuestions_ids_nodup raw), rfl⟩

/-- C10: the scorer does not deduplicate answers by `questionId` — every
matched submitted answer contributes its own result row and, when correct,
one point; concretely, submitting the same correct answer three times against
a one-question quiz yields `score = 3`, `total = 1`, `percentage = 300`. -/
theorem scorer_no_deduplication :
    (∀ (raw : List CleanedQ) (answers : List AnswerItem),
      (scoreQuiz (buildAllQuestions raw) answers).results.length
        = answers.countP (answerMatched (buildQuestionMap (buildAllQuestions raw))) ∧
      (scoreQuiz (buildAllQuestions raw) answers).score
        = answers.countP (answerIsCorrect (buildQuestionMap (buildAllQuestions raw)))) ∧
    (scoreQuiz
      (buildAllQuestions
        [⟨"Q", [Json.str "a", Json.str "b", Json.str "c", Json.str "d"], 2,
          Json.str ""⟩])
      [⟨0, 2⟩, ⟨0, 2⟩, ⟨0, 2⟩]).score = 3 ∧
    (scoreQuiz
      (buildAllQuestions
        [⟨"Q", [Json.str "a", Json.str "b", Json.str "c", Json.str "d"], 2,
          Json.str ""⟩])
      [⟨0, 2⟩, ⟨0, 2⟩, ⟨0, 2⟩]).total = 1 ∧
    (scoreQuiz
      (buildAllQuestions
        [⟨"Q", [Json.str "a", Json.str "b", Json.str "c", Json.str "d"], 2,
          Json.str ""⟩])
      [⟨0, 2⟩, ⟨0, 2⟩, ⟨0, 2⟩]).percentage = 300 := by
  refine ⟨fun raw answers => ⟨filterMap_rowOf_length _ _, filterMap_rowOf_correct _ _⟩,
    rfl, rfl, ?_⟩
  show (if (1 : Nat) = 0 then (0 : ℚ) else ((3 : Nat) : ℚ) / ((1 : Nat) : ℚ) * 100) = 300
  norm_num

/-- C7: writing a freshly generated token into the `QUIZZES` store (Python
dict assignment) leaves the questions stored under every other key unchanged,
including when the new token collides with an existing key. -/
theorem quiz_store_create_preserves_other_keys
    (store : QuizStore) (t : String) (qs : List StoredQuestion) (k : String)
    (hk : k ≠ t) :
    quizStoreGet (quizStoreSet store t qs) k = quizStoreGet store k := by
  unfold quizStoreSet quizStoreGet
  by_cases hmem : store.any (fun p => p.1 = t)
  · rw [if_pos hmem, find?_map_overwrite hk]
  · rw [if_neg hmem, find?_append_fresh hk]

theorem quiz_store_create_preserves_other_keys_witness :
    "other" ≠ "taken" ∧
    quizStoreGet
      (quizStoreSet
        [("taken", []), ("other",
          [⟨0, "Q", [Json.str "a", Json.str "b", Json.str "c", Json.str "d"], 1,
            Json.str ""⟩])]
        "taken"
        [⟨0, "R", [Json.str "w", Json.str "x", Json.str "y", Json.str "z"], 3,
          Json.str ""⟩])
      "other"
    = quizStoreGet
        [("taken", []), ("other",
          [⟨0, "Q", [Json.str "a", Json.str "b", Json.str "c", Json.str "d"], 1,
            Json.str ""⟩])]
        "other" :=
  ⟨by decide, quiz_store_create_preserves_other_keys _ "taken" _ "other" (by decide)⟩

/-- C4 counterexample: an upstream `requests` failure during playlist listing
is not caught — `get_playlist_video_ids` propagates it as an exception
(the claim asserts no such failure ever propagates out of the collector). -/
theorem playlist_listing_failure_propagates :
    get_playlist_video_ids true PageChain.fail 5 = .error .requestFailure := rfl

/-- C4 amended: unexpected upstream failures during transcript fetch and
metadata fetch are caught at the collector boundary and treated as "no data"
(given the API key is configured, whose absence raises outside the `try`);
the playlist-listing path is excluded because it propagates failures. -/
theorem transcript_metadata_failures_never_propagate :
    (∀ f : TranscriptFetch, f.isErr = true → get_video_transcript f = none) ∧
    (∀ mr : MetaResp, ∃ o, get_video_title_description true mr = .ok o) ∧
    get_video_title_description true .fail = .ok none := by
  refine ⟨?_, fun mr => ⟨_, rfl⟩, rfl⟩
  intro f hf
  cases f with
  | ok segments => simp [TranscriptFetch.isErr] at hf
  | transcriptsDisabled => rfl
  | noTranscriptFound => rfl
  | couldNotRetrieve => rfl
  | unexpectedFailure => rfl

theorem transcript_metadata_failures_never_propagate_witness :
    TranscriptFetch.isErr .unexpectedFailure = true ∧
    get_video_transcript .unexpectedFailure = none :=
  ⟨rfl, transcript_metadata_failures_never_propagate.1 .unexpectedFailure rfl⟩

/-- C9: the per-video text the collector contributes to aggregation is never
the empty string and is non-empty after whitespace trimming — both for the
transcript path (`get_video_transcript` strips and maps empty to `None`) and
for the whole per-video collection step (whose metadata fallback strips and
skips a would-be-empty block). -/
theorem collector_source_text_nonempty :
    (∀ (f : TranscriptFetch) (t : List Char), get_video_transcript f = some t →
      t ≠ [] ∧ pyStrip t ≠ []) ∧
    (∀ (tf : TranscriptFetch) (key : Bool) (mr : MetaResp) (t : List Char),
      collectVideoText tf key mr = .ok (some t) → t ≠ [] ∧ pyStrip t ≠ []) := by
  constructor
  · intro f t h
    obtain ⟨h1, h2⟩ := get_video_transcript_some h
    refine ⟨h1, ?_⟩
    rw [h2]
    exact h1
  · intro tf key mr t h
    obtain ⟨h1, h2⟩ := collectVideoText_some h
    refine ⟨h1, ?_⟩
    rw [h2]
    exact h1

theorem collector_source_text_nonempty_witness :
    get_video_transcript (.ok [['h', 'i']]) = some ['h', 'i'] ∧
    (['h', 'i'] ≠ [] ∧ pyStrip ['h', 'i'] ≠ []) ∧
    collectVideoText .noTranscriptFound true (.ok [(['T'], [])])
      = .ok (some "Video title: T".toList) ∧
    ("Video title: T".toList ≠ [] ∧ pyStrip "Video title: T".toList ≠ []) :=
  ⟨rfl, collector_source_text_nonempty.1 (.ok [['h', 'i']]) ['h', 'i'] rfl, rfl,
    collector_source_text_nonempty.2 .noTranscriptFound true (.ok [(['T'], [])])
      "Video title: T".toList rfl⟩

/-- C5 counterexample: the claim's priority order puts `/shorts/<id>` before
the short-domain `/<id>` pattern, but the source tries `youtu.be/` before
`shorts/`; on an input containing both patterns the two orders disagree. -/
theorem video_resolver_order_counterexample :
    extract_video_id "youtu.be/AAAAAAAAAAA/shorts/BBBBBBBBBBB".toList
        = some "AAAAAAAAAAA".toList ∧
    resolveVideoSpecOrder "youtu.be/AAAAAAAAAAA/shorts/BBBBBBBBBBB".toList
        = some "BBBBBBBBBBB".toList ∧
    some "AAAAAAAAAAA".toList ≠ some "BBBBBBBBBBB".toList :=
  ⟨rfl, rfl, by decide⟩

/-- C5 amended: `extract_video_id` tries the patterns in the priority order
bare 11-character token, `v=` parameter, short-domain `youtu.be/<id>`
segment, then `shorts/<id>` segment — first match wins, `none` when no
pattern matches (the first-match-wins cascade `resolveVideoCodeOrder`). -/
theorem video_resolver_priority_order (s : List Char) :
    extract_video_id s = resolveVideoCodeOrder s := by
  unfold extract_video_id resolveVideoCodeOrder
  by_cases hbare : (pyStrip s).length = 11 ∧ (pyStrip s).all isIdChar
  · rw [if_pos hbare, if_pos hbare]
  · rw [if_neg hbare, if_neg hbare]
    rcases hv : matchIdAfter vEqLit (pyStrip s) with _ | r₁ <;>
      rcases hy : matchIdAfter youtuBeLit (pyStrip s) with _ | r₂ <;>
        rcases hs : matchIdAfter shortsLit (pyStrip s) with _ | r₃ <;>
          simp [hv, hy, hs, Option.orElse]

/-- C6 counterexample: the validation loop checks only the length of
`options` (and the `correct_index` bounds), so a reply whose options repeat a
string and include a non-string value passes validation and is returned by
the generator — violating the claimed "exactly 4 distinct strings". -/
theorem question_distinctness_counterexample :
    generate_questions_from_text "t" 1 none
      (some [("questions", Json.arr [Json.obj
        [("question", Json.str "Q"),
         ("options", Json.arr
           [Json.str "A", Json.str "A", Json.int 7, Json.str "B"]),
         ("correct_index", Json.int 0)]])])
      = .ok [⟨"Q", [Json.str "A", Json.str "A", Json.int 7, Json.str "B"], 0,
          Json.str ""⟩] ∧
    ¬ specQuestionInvariant
      ⟨"Q", [Json.str "A", Json.str "A", Json.int 7, Json.str "B"], 0,
        Json.str ""⟩ := by
  refine ⟨rfl, ?_⟩
  rintro ⟨-, -, hstr, -⟩
  rcases hstr (Json.int 7) (by simp) with ⟨s, hs⟩
  exact Json.noConfusion hs

/-- C6 amended: every question the generator returns — and every question
dict the caller builds and stores from that output — has an options list of
exactly 4 elements and an integer `correct_index` in `[0, 4)` (distinctness
and string-ness of the options are not validated). -/
theorem stored_question_shape_invariant
    (text : String) (n : Int) (diff : Option String)
    (reply : Option (List (String × Json))) (res : List CleanedQ)
    (h : generate_questions_from_text text n diff reply = .ok res) :
    (∀ q ∈ res, q.options.length = 4 ∧ 0 ≤ q.correct_index ∧ q.correct_index < 4) ∧
    (∀ sq ∈ buildAllQuestions res,
      sq.options.length = 4 ∧ 0 ≤ sq.correct_index ∧ sq.correct_index < 4) := by
  have hres : ∀ q ∈ res,
      q.options.length = 4 ∧ 0 ≤ q.correct_index ∧ q.correct_index < 4 := by
    rcases generate_ok_cases h with rfl | ⟨fields, qs, cleaned, hr, hp, hc, hcase⟩
    · simp
    · have hshape := cleanQuestions_ok_shape hc
      rcases hcase with rfl | ⟨rfl, -⟩
      · exact fun q hq => hshape q (List.take_subset _ _ hq)
      · exact hshape
  refine ⟨hres, ?_⟩
  intro sq hsq
  unfold buildAllQuestions at hsq
  rcases List.mem_map.mp hsq with ⟨p, hp, rfl⟩
  exact hres p.2 (snd_mem_of_mem_enumFrom hp)

theorem stored_question_shape_invariant_witness :
    generate_questions_from_text "t" 1 none
      (some [("questions", Json.arr [Json.obj
        [("question", Json.str "W"),
         ("options", Json.arr
           [Json.str "w1", Json.str "w2", Json.str "w3", Json.str "w4"]),
         ("correct_index", Json.int 3),
         ("explanation", Json.str "why")]])])
      = .ok [⟨"W", [Json.str "w1", Json.str "w2", Json.str "w3", Json.str "w4"], 3,
          Json.str "why"⟩] ∧
    ((∀ q ∈ [(⟨"W", [Json.str "w1", Json.str "w2", Json.str "w3", Json.str "w4"], 3,
        Json.str "why"⟩ : CleanedQ)],
      q.options.length = 4 ∧ 0 ≤ q.correct_index ∧ q.correct_index < 4) ∧
     (∀ sq ∈ buildAllQuestions
        [(⟨"W", [Json.str "w1", Json.str "w2", Json.str "w3", Json.str "w4"], 3,
          Json.str "why"⟩ : CleanedQ)],
      sq.options.length = 4 ∧ 0 ≤ sq.correct_index ∧ sq.correct_index < 4)) :=
  ⟨rfl, stored_question_shape_invariant "t" 1 none
    (some [("questions", Json.arr [Json.obj
      [("question", Json.str "W"),
       ("options", Json.arr
         [Json.str "w1", Json.str "w2", Json.str "w3", Json.str "w4"]),
       ("correct_index", Json.int 3),
       ("explanation", Json.str "why")]])])
    [⟨"W", [Json.str "w1", Json.str "w2", Json.str "w3", Json.str "w4"], 3,
      Json.str "why"⟩]
    rfl⟩

/-- C2: with the target count in the domain the spec gives it (`≥ 1`, the
upstream clamp), every successful run of the generator returns at most
`num_questions` questions, each with a string question, an options list of
length 4, and an integer `correct_index` in `[0, 4)` (string-ness and
integer-ness are enforced by the `CleanedQ` field types); and whenever the
validated list reaches the target, the result is exactly its first
`num_questions` elements in model-given order. -/
theorem generator_target_count_and_shape
    (text : String) (n : Int) (diff : Option String)
    (reply : Option (List (String × Json))) (hn : 1 ≤ n) :
    (∀ res, generate_questions_from_text text n diff reply = .ok res →
      res.length ≤ n.toNat ∧
      ∀ q ∈ res, q.options.length = 4 ∧ 0 ≤ q.correct_index ∧ q.correct_index < 4) ∧
    (∀ fields qs cleaned, reply = some fields →
      parseQuestionsList fields = .ok qs → cleanQuestions qs = .ok cleaned →
      n.toNat ≤ cleaned.length →
      generate_questions_from_text text n diff reply = .ok (cleaned.take n.toNat)) := by
  have hmax : max 1 n = n := max_eq_right hn
  constructor
  · intro res hres
    rcases generate_ok_cases hres with rfl | ⟨fields, qs, cleaned, hr, hp, hc, hcase⟩
    · exact ⟨by simp, by simp⟩
    · have hshape := cleanQuestions_ok_shape hc
      rcases hcase with rfl | ⟨rfl, hlt⟩
      · refine ⟨?_, fun q hq => hshape q (List.take_subset _ _ hq)⟩
        rw [hmax, List.length_take]
        exact Nat.min_le_left _ _
      · rw [hmax] at hlt
        exact ⟨by omega, hshape⟩
  · intro fields qs cleaned hr hp hc hlen
    subst hr
    have hgen := @generate_ok_take text n diff fields qs cleaned hp hc
      (by rw [hmax]; exact hlen)
    rw [hmax] at hgen
    exact hgen

theorem generator_target_count_and_shape_witness :
    (1 : Int) ≤ 2 ∧
    generate_questions_from_text "t" 2 none
      (some [("questions", Json.arr
        [Json.obj
          [("question", Json.str "q0"),
           ("options", Json.arr
             [Json.str "a", Json.str "b", Json.str "c", Json.str "d"]),
           ("correct_index", Json.int 1)],
         Json.obj
          [("question", Json.str "q1"),
           ("options", Json.arr
             [Json.str "e", Json.str "f", Json.str "g", Json.str "h"]),
           ("correct_index", Json.int 2)],
         Json.obj
          [("question", Json.str "q2"),
           ("options", Json.arr
             [Json.str "i", Json.str "j", Json.str "k", Json.str "l"]),
           ("correct_index", Json.int 3)]])])
      = .ok [⟨"q0", [Json.str "a", Json.str "b", Json.str "c", Json.str "d"], 1,
          Json.str ""⟩,
        ⟨"q1", [Json.str "e", Json.str "f", Json.str "g", Json.str "h"], 2,
          Json.str ""⟩] := by
  refine ⟨by norm_num, ?_⟩
  exact (generator_target_count_and_shape "t" 2 none
    (some [("questions", Json.arr
      [Json.obj
        [("question", Json.str "q0"),
         ("options", Json.arr
           [Json.str "a", Json.str "b", Json.str "c", Json.str "d"]),
         ("correct_index", Json.int 1)],
       Json.obj
        [("question", Json.str "q1"),
         ("options", Json.arr
           [Json.str "e", Json.str "f", Json.str "g", Json.str "h"]),
         ("correct_index", Json.int 2)],
       Json.obj
        [("question", Json.str "q2"),
         ("options", Json.arr
           [Json.str "i", Json.str "j", Json.str "k", Json.str "l"]),
         ("correct_index", Json.int 3)]])]) (by norm_num)).2
    [("questions", Json.arr
      [Json.obj
        [("question", Json.str "q0"),
         ("options", Json.arr
           [Json.str "a", Json.str "b", Json.str "c", Json.str "d"]),
         ("correct_index", Json.int 1)],
       Json.obj
        [("question", Json.str "q1"),
         ("options", Json.arr
           [Json.str "e", Json.str "f", Json.str "g", Json.str "h"]),
         ("correct_index", Json.int 2)],
       Json.obj
        [("question", Json.str "q2"),
         ("options", Json.arr
           [Json.str "i", Json.str "j", Json.str "k", Json.str "l"]),
         ("correct_index", Json.int 3)]])]
    [Json.obj
      [("question", Json.str "q0"),
       ("options", Json.arr
         [Json.str "a", Json.str "b", Json.str "c", Json.str "d"]),
       ("correct_index", Json.int 1)],
     Json.obj
      [("question", Json.str "q1"),
       ("options", Json.arr
         [Json.str "e", Json.str "f", Json.str "g", Json.str "h"]),
       ("correct_index", Json.int 2)],
     Json.obj
      [("question", Json.str "q2"),
       ("options", Json.arr
         [Json.str "i", Json.str "j", Json.str "k", Json.str "l"]),
       ("correct_index", Json.int 3)]]
    [⟨"q0", [Json.str "a", Json.str "b", Json.str "c", Json.str "d"], 1,
      Json.str ""⟩,
     ⟨"q1", [Json.str "e", Json.str "f", Json.str "g", Json.str "h"], 2,
      Json.str ""⟩,
     ⟨"q2", [Json.str "i", Json.str "j", Json.str "k", Json.str "l"], 3,
      Json.str ""⟩]
    rfl rfl rfl (by norm_num)

/-- C8 counterexample: the regex captures only identifier-alphabet characters,
so for a URL whose `list=` parameter value contains a character outside
`[a-zA-Z0-9_-]` the resolver does not return "that parameter's value exactly"
— it returns a strict prefix of it. -/
theorem playlist_param_value_truncated :
    urlWithListParam "https://www.youtube.com/playlist".toList [] "PL1.2".toList []
        = "https://www.youtube.com/playlist?list=PL1.2".toList ∧
    extract_playlist_id "https://www.youtube.com/playlist?list=PL1.2".toList
        = some "PL1".toList ∧
    some "PL1".toList ≠ some "PL1.2".toList :=
  ⟨rfl, rfl, by decide⟩

/-- C8 amended: for every URL of the spec's query shape whose first `list`
parameter has a nonempty value over the identifier alphabet `[a-zA-Z0-9_-]`,
the resolver returns that value exactly, independent of the other query
parameters present (values with characters outside the alphabet are truncated
at the first such character); and `main.generate_quiz` treats the request as
a playlist whenever a playlist id resolves, regardless of whether a video id
also appears in the same URL. -/
theorem playlist_param_resolution :
    (∀ (pre : List Char) (earlier : List (List Char)) (v : List Char)
        (later : List (List Char)),
      (∀ c ∈ pre, c ≠ '?' ∧ c ≠ '&') → (∀ p ∈ earlier, plainParam p) →
      v ≠ [] → (∀ ch ∈ v, isIdChar ch = true) →
      extract_playlist_id (urlWithListParam pre earlier v later) = some v) ∧
    (∀ (url pid : List Char), extract_playlist_id url = some pid →
      classifyUrl url = .playlist pid) := by
  constructor
  · intro pre earlier v later hpre hgood hv hvid
    unfold extract_playlist_id urlWithListParam
    rw [searchListParam_skip _ hpre]
    exact searchListParam_pairs hv hvid earlier '?' (Or.inl rfl) hgood
  · intro url pid h
    unfold classifyUrl
    rw [h]

theorem playlist_param_resolution_witness :
    urlWithListParam "https://www.youtube.com/watch".toList
        ["v=dQw4w9WgXcQ".toList] "PL99".toList []
      = "https://www.youtube.com/watch?v=dQw4w9WgXcQ&list=PL99".toList ∧
    extract_playlist_id
        (urlWithListParam "https://www.youtube.com/watch".toList
          ["v=dQw4w9WgXcQ".toList] "PL99".toList [])
      = some "PL99".toList ∧
    extract_video_id "https://www.youtube.com/watch?v=dQw4w9WgXcQ&list=PL99".toList
      = some "dQw4w9WgXcQ".toList ∧
    classifyUrl "https://www.youtube.com/watch?v=dQw4w9WgXcQ&list=PL99".toList
      = .playlist "PL99".toList := by
  refine ⟨rfl, ?_, rfl, ?_⟩
  · refine playlist_param_resolution.1 _ _ _ _ (by decide) ?_ (by decide) (by decide)
    intro p hp
    rw [List.mem_singleton] at hp
    subst hp
    exact ⟨by decide, not_ex_of_isPrefixOf_false (by decide)⟩
  · exact playlist_param_resolution.2 _ "PL99".toList
      (playlist_param_resolution.1 "https://www.youtube.com/watch".toList
        ["v=dQw4w9WgXcQ".toList] "PL99".toList [] (by decide)
        (by
          intro p hp
          rw [List.mem_singleton] at hp
          subst hp
          exact ⟨by decide, not_ex_of_isPrefixOf_false (by decide)⟩)
        (by decide) (by decide))
